import Mathlib

/-!
Verification of the ingestion engine of the `nfl-data-duckdb` repository.

The definitions below are shallow embeddings of the Python source:

* `safe_bool_convert_value`, `safe_bool_convert`, `convertBoolColumn` embed
  `safe_bool_convert` and its caller `DatabaseManager._convert_dataframe_types`
  (src/nfl_analytics/database/manager.py, lines 124-137 and 140-173);
* `insert_dataframe` and its helpers embed `DatabaseManager.insert_dataframe`
  (manager.py, lines 183-264);
* `log_refresh`, `nextIdQuery`, `insertPK` embed `DatabaseManager.log_refresh`
  (manager.py, lines 342-377) over the `data_refresh_log` table, whose `id`
  column is an INTEGER PRIMARY KEY;
* `lastRefreshQuery`, `get_last_refresh` embed `DatabaseManager.get_last_refresh`
  (manager.py, lines 307-340);
* `assignRank`, `computeAdpColumn`, `computeVsAdpColumn`, `processRecords`
  embed the rank/ADP logic of `ECRExtractor.process_ecr_file`
  (src/nfl_analytics/extractors/ecr_extractor.py, lines 150-171 and 231-300);
* `refresh_raw_ecr` embeds `ECRExtractor.refresh_raw_ecr`
  (ecr_extractor.py, lines 306-382).
-/

/-! ## Boolean coercion (`safe_bool_convert`, manager.py lines 124-137)

A pandas object column is modelled as a `List String` (the result of
`series.astype(str)`).  The `replace` dictionary maps the lower-cased string
through a fixed token table; the final `astype('boolean')` accepts booleans
and nulls but raises `TypeError` on any remaining (unmapped) string, which we
model with `Except`.  The caller `_convert_dataframe_types` wraps the call in
`try/except` and keeps the original column if the conversion raises
(manager.py lines 147-173), modelled by `convertBoolColumn`. -/

deriving instance DecidableEq for Except

/-- Python `str.lower()`: ASCII lower-casing applied character by character.
(Same behavior as `String.toLower` on the token strings involved, but
defined by structural recursion so concrete instances evaluate.) -/
def lowerString (v : String) : String := ⟨v.data.map Char.toLower⟩

def boolTrueTokens : List String := ["true", "1", "yes", "y"]

def boolFalseTokens : List String := ["false", "0", "no", "n"]

def boolNullTokens : List String := ["nan", "none", ""]

def safe_bool_convert_value (v : String) : Except String (Option Bool) :=
  let s := lowerString v
  if s ∈ boolTrueTokens then .ok (some true)
  else if s ∈ boolFalseTokens then .ok (some false)
  else if s ∈ boolNullTokens then .ok none
  else .error "Need to pass bool-like values"

def safe_bool_convert : List String → Except String (List (Option Bool))
  | [] => .ok []
  | v :: vs =>
    match safe_bool_convert_value v with
    | .error e => .error e
    | .ok b =>
      match safe_bool_convert vs with
      | .error e => .error e
      | .ok bs => .ok (b :: bs)

def convertBoolColumn (col : List String) : List String ⊕ List (Option Bool) :=
  match safe_bool_convert col with
  | .ok bs => Sum.inr bs
  | .error _ => Sum.inl col

/-! ## Table materialization (`insert_dataframe`, manager.py lines 183-264)

A stored table is a `List Row`; an incoming batch is a `List BatchRow`.
The `season`/`week` columns are `Option Int` (NaN = `none`); the remaining
columns of a row are abstracted into `payload`.  `created_at`/`updated_at`
are added by the code when the batch lacks them (manager.py lines 220-223),
modelled by stamping each inserted row with the ingestion time `now`.
`hasWeekCol` records whether the batch carries a `week` column
(`'week' in df_clean.columns`, line 247); when it is `false` the `week`
fields of the batch rows are `none`. -/

structure BatchRow where
  season : Option Int
  week : Option Int
  payload : Nat
deriving DecidableEq, Repr

structure Row where
  season : Option Int
  week : Option Int
  payload : Nat
  created_at : Nat
  updated_at : Nat
deriving DecidableEq, Repr

def stampRow (now : Nat) (b : BatchRow) : Row :=
  { season := b.season, week := b.week, payload := b.payload
    created_at := now, updated_at := now }

/-- Tables fully replaced on ingest (manager.py line 239). -/
def lookupTables : List String := ["teams", "players"]

/-- Tables replaced partition-by-partition (manager.py line 242). -/
def factTables : List String :=
  ["weekly_stats", "seasonal_stats", "pbp_data", "rosters", "injuries"]

/-- Models `pandas.Series.unique` after `dropna`: first occurrence of each value. -/
def uniqueFirstAux : List Int → List Int → List Int
  | _, [] => []
  | seen, x :: xs =>
    if x ∈ seen then uniqueFirstAux seen xs
    else x :: uniqueFirstAux (x :: seen) xs

def uniqueFirst (l : List Int) : List Int := uniqueFirstAux [] l

/-- Models `df_clean['season'].dropna().unique()` (manager.py line 245). -/
def seasonsOf (rows : List BatchRow) : List Int :=
  uniqueFirst (rows.filterMap (fun b => b.season))

/-- Models `df_clean[df_clean['season'] == season]['week'].dropna().unique()`
(manager.py line 248). -/
def weeksOf (rows : List BatchRow) (s : Int) : List Int :=
  uniqueFirst ((rows.filter (fun b => b.season == some s)).filterMap
    (fun b => b.week))

/-- SQL `DELETE FROM t WHERE season = ? AND week = ?` (manager.py line 250);
a stored row with a NULL `season` or `week` never matches the equality. -/
def deleteSeasonWeek (t : List Row) (s : Int) (w : Int) : List Row :=
  t.filter (fun r => !(r.season == some s && r.week == some w))

/-- SQL `DELETE FROM t WHERE season = ?` (manager.py line 252). -/
def deleteSeason (t : List Row) (s : Int) : List Row :=
  t.filter (fun r => !(r.season == some s))

/-- The body of the per-season loop (manager.py lines 246-252). -/
def clearPartition (tn : String) (hasWeekCol : Bool) (rows : List BatchRow)
    (t : List Row) (s : Int) : List Row :=
  if tn = "weekly_stats" && hasWeekCol then
    (weeksOf rows s).foldl (fun acc w => deleteSeasonWeek acc s w) t
  else deleteSeason t s

/-- The conflict-clearing step of `insert_dataframe`
(manager.py lines 236-253), for `on_conflict = "REPLACE"`. -/
def clearConflicts (tn : String) (hasWeekCol : Bool) (rows : List BatchRow)
    (t : List Row) : List Row :=
  if tn ∈ lookupTables then []
  else if tn ∈ factTables then
    (seasonsOf rows).foldl (fun acc s => clearPartition tn hasWeekCol rows acc s) t
  else t

/-- Embeds `DatabaseManager.insert_dataframe` (manager.py lines 183-264): empty
batches are a no-op returning 0; otherwise conflicts are cleared (for the
`REPLACE` policy) and the stamped batch rows are appended; the row count of
the batch is returned. -/
def insert_dataframe (t : List Row) (tn : String) (rows : List BatchRow)
    (hasWeekCol : Bool) (onConflict : String) (now : Nat) : List Row × Nat :=
  if rows = [] then (t, 0)
  else
    let cleared := if onConflict = "REPLACE" then clearConflicts tn hasWeekCol rows t else t
    (cleared ++ rows.map (stampRow now), rows.length)

/-- A stored row survives the `(season, week)` deletes issued for season `s`. -/
def survivesWeekly (rows : List BatchRow) (s : Int) (r : Row) : Bool :=
  (weeksOf rows s).all (fun w => !(r.season == some s && r.week == some w))

/-- A stored row survives the deletes issued for season `s`. -/
def survivesSeason (tn : String) (hasWeekCol : Bool) (rows : List BatchRow)
    (s : Int) (r : Row) : Bool :=
  if tn = "weekly_stats" && hasWeekCol then survivesWeekly rows s r
  else !(r.season == some s)

/-- A stored row survives every delete issued for the batch. -/
def survivesBatch (tn : String) (hasWeekCol : Bool) (rows : List BatchRow)
    (r : Row) : Bool :=
  (seasonsOf rows).all (fun s => survivesSeason tn hasWeekCol rows s r)

/-! ### Characterization lemmas for the delete loops -/

theorem foldl_filter_eq_filter_all {κ α : Type} (q : κ → α → Bool) :
    ∀ (keys : List κ) (t : List α),
      keys.foldl (fun acc k => acc.filter (fun r => q k r)) t
        = t.filter (fun r => keys.all (fun k => q k r)) := by
  intro keys
  induction keys with
  | nil => intro t; simp
  | cons k ks ih =>
    intro t
    simp only [List.foldl_cons, ih, List.filter_filter, List.all_cons]
    exact List.filter_congr (fun x _ => Bool.and_comm _ _)

theorem clearPartition_eq_filter (tn : String) (hw : Bool) (rows : List BatchRow)
    (t : List Row) (s : Int) :
    clearPartition tn hw rows t s = t.filter (survivesSeason tn hw rows s) := by
  unfold clearPartition survivesSeason
  by_cases h : (tn = "weekly_stats" && hw) = true
  · simp only [h, if_true]
    have := foldl_filter_eq_filter_all
      (fun w (r : Row) => !(r.season == some s && r.week == some w)) (weeksOf rows s) t
    simpa [deleteSeasonWeek, survivesWeekly] using this
  · simp only [h, if_false]
    rfl

theorem clearConflicts_fact_eq_filter (tn : String) (hw : Bool)
    (rows : List BatchRow) (t : List Row)
    (h1 : tn ∉ lookupTables) (h2 : tn ∈ factTables) :
    clearConflicts tn hw rows t = t.filter (survivesBatch tn hw rows) := by
  unfold clearConflicts
  simp only [if_neg h1, if_pos h2]
  simp only [clearPartition_eq_filter]
  exact foldl_filter_eq_filter_all (fun s r => survivesSeason tn hw rows s r)
    (seasonsOf rows) t

theorem factTables_not_lookup (tn : String) (h : tn ∈ factTables) :
    tn ∉ lookupTables := by
  fin_cases h <;> decide

/-- Full characterization of `insert_dataframe` on a fact table under
`REPLACE`: the stored rows not matching any batch partition key survive,
and the stamped batch rows are appended. -/
theorem insert_dataframe_fact_char (t : List Row) (tn : String)
    (rows : List BatchRow) (hw : Bool) (now : Nat) (h : tn ∈ factTables) :
    insert_dataframe t tn rows hw "REPLACE" now
      = (t.filter (survivesBatch tn hw rows) ++ rows.map (stampRow now),
         rows.length) := by
  unfold insert_dataframe
  by_cases hr : rows = []
  · subst hr
    simp only [if_pos rfl, List.map_nil, List.append_nil, List.length_nil]
    exact congrArg (·, 0) (List.filter_eq_self.mpr (fun r _ => rfl)).symm
  · simp only [if_neg hr]
    simp [clearConflicts_fact_eq_filter tn hw rows t (factTables_not_lookup tn h) h]

theorem mem_uniqueFirstAux (x : Int) :
    ∀ (l seen : List Int), x ∈ l → x ∉ seen → x ∈ uniqueFirstAux seen l := by
  intro l
  induction l with
  | nil => intro seen hx _; cases hx
  | cons y ys ih =>
    intro seen hx hs
    rcases List.mem_cons.mp hx with rfl | hxt
    · by_cases hy : x ∈ seen
      · exact absurd hy hs
      · simp [uniqueFirstAux, if_neg hy]
    · by_cases hy : y ∈ seen
      · simpa [uniqueFirstAux, if_pos hy] using ih seen hxt hs
      · simp only [uniqueFirstAux, if_neg hy]
        by_cases hxy : x = y
        · subst hxy; exact List.mem_cons_self _ _
        · exact List.mem_cons_of_mem _ (ih (y :: seen) hxt (by
            intro hc
            rcases List.mem_cons.mp hc with h1 | h2
            · exact hxy h1
            · exact hs h2))

theorem uniqueFirstAux_subset (x : Int) :
    ∀ (l seen : List Int), x ∈ uniqueFirstAux seen l → x ∈ l := by
  intro l
  induction l with
  | nil => intro seen hx; cases hx
  | cons y ys ih =>
    intro seen hx
    simp only [uniqueFirstAux] at hx
    by_cases hy : y ∈ seen
    · rw [if_pos hy] at hx
      exact List.mem_cons_of_mem _ (ih seen hx)
    · rw [if_neg hy] at hx
      rcases List.mem_cons.mp hx with rfl | ht
      · exact List.mem_cons_self _ _
      · exact List.mem_cons_of_mem _ (ih (y :: seen) ht)

theorem mem_uniqueFirst (x : Int) (l : List Int) (h : x ∈ l) :
    x ∈ uniqueFirst l :=
  mem_uniqueFirstAux x l [] h (by simp)

theorem mem_seasonsOf (rows : List BatchRow) (b : BatchRow) (s : Int)
    (hb : b ∈ rows) (hs : b.season = some s) : s ∈ seasonsOf rows :=
  mem_uniqueFirst s _ (List.mem_filterMap.mpr ⟨b, hb, hs⟩)

theorem seasonsOf_subset (rows : List BatchRow) (s : Int)
    (h : s ∈ seasonsOf rows) : ∃ b ∈ rows, b.season = some s := by
  have := uniqueFirstAux_subset s _ [] h
  exact List.mem_filterMap.mp this

theorem mem_weeksOf (rows : List BatchRow) (b : BatchRow) (s w : Int)
    (hb : b ∈ rows) (hs : b.season = some s) (hw : b.week = some w) :
    w ∈ weeksOf rows s := by
  apply mem_uniqueFirst
  exact List.mem_filterMap.mpr ⟨b, List.mem_filter.mpr ⟨hb, by simp [hs]⟩, hw⟩

/-- Every batch row whose partition key is fully non-null is removed by the
deletes the batch itself issues. -/
theorem stamped_row_hit (tn : String) (hw : Bool) (rows : List BatchRow)
    (now : Nat) (b : BatchRow)
    (hb : b ∈ rows)
    (hs : b.season.isSome)
    (hwk : tn = "weekly_stats" → hw = true → b.week.isSome) :
    survivesBatch tn hw rows (stampRow now b) = false := by
  obtain ⟨s, hseq⟩ := Option.isSome_iff_exists.mp hs
  rw [Bool.eq_false_iff]
  intro hall
  have hmem : s ∈ seasonsOf rows := mem_seasonsOf rows b s hb hseq
  have hb2 := List.all_eq_true.mp hall s hmem
  unfold survivesSeason at hb2
  by_cases hcase : (tn = "weekly_stats" && hw) = true
  · rw [if_pos hcase] at hb2
    have hsplit : tn = "weekly_stats" ∧ hw = true := by simpa using hcase
    obtain ⟨w, hweq⟩ := Option.isSome_iff_exists.mp (hwk hsplit.1 hsplit.2)
    have hwmem : w ∈ weeksOf rows s := mem_weeksOf rows b s w hb hseq hweq
    have := List.all_eq_true.mp hb2 w hwmem
    simp [stampRow, hseq, hweq] at this
  · rw [if_neg hcase] at hb2
    simp [stampRow, hseq] at hb2

theorem filter_stamped_nil (tn : String) (hw : Bool) (rows : List BatchRow)
    (now : Nat)
    (hs : ∀ b ∈ rows, b.season.isSome)
    (hwk : tn = "weekly_stats" → hw = true → ∀ b ∈ rows, b.week.isSome) :
    (rows.map (stampRow now)).filter (survivesBatch tn hw rows) = [] := by
  rw [List.filter_eq_nil_iff]
  intro r hr
  obtain ⟨b, hb, rfl⟩ := List.mem_map.mp hr
  rw [stamped_row_hit tn hw rows now b hb (hs b hb)
    (fun h1 h2 => hwk h1 h2 b hb)]
  simp

/-- C1 (amended): under `REPLACE_BY_PARTITION` (the fact tables of
`insert_dataframe`), ingesting a batch twice — at times `t1`, then `t2` —
leaves exactly the rows a single ingestion at `t2` produces, PROVIDED every
batch row carries a non-null `season` (and, for `weekly_stats` batches that
carry a `week` column, a non-null `week`).  Rows with null partition keys
are inserted but never deleted, so for them re-ingestion duplicates rather
than replaces (see the counterexample). -/
theorem C1_idempotent (t : List Row) (tn : String) (rows : List BatchRow)
    (hw : Bool) (t1 t2 : Nat)
    (htn : tn ∈ factTables)
    (hs : ∀ b ∈ rows, b.season.isSome)
    (hwk : tn = "weekly_stats" → hw = true → ∀ b ∈ rows, b.week.isSome) :
    (insert_dataframe (insert_dataframe t tn rows hw "REPLACE" t1).1
        tn rows hw "REPLACE" t2).1
      = (insert_dataframe t tn rows hw "REPLACE" t2).1 := by
  rw [insert_dataframe_fact_char t tn rows hw t1 htn]
  rw [insert_dataframe_fact_char _ tn rows hw t2 htn]
  rw [insert_dataframe_fact_char t tn rows hw t2 htn]
  simp only [List.filter_append, List.filter_filter]
  rw [filter_stamped_nil tn hw rows t1 hs hwk]
  rw [List.filter_congr (fun (x : Row) _ => Bool.and_self (survivesBatch tn hw rows x))]
  simp

/-- The claim of C1 without the non-null-key proviso is false: a
`seasonal_stats` batch containing a row with a null `season` is duplicated
by re-ingestion (2 rows after ingesting twice, 1 row after ingesting once),
because the per-season delete loop iterates only over
`df_clean['season'].dropna().unique()`. -/
theorem C1_counterexample :
    ((insert_dataframe
        (insert_dataframe [] "seasonal_stats" [⟨none, none, 0⟩] false "REPLACE" 7).1
        "seasonal_stats" [⟨none, none, 0⟩] false "REPLACE" 8).1).length = 2
    ∧ ((insert_dataframe [] "seasonal_stats" [⟨none, none, 0⟩] false "REPLACE" 8).1).length = 1 := by
  decide

theorem C1_idempotent_witness :
    (insert_dataframe
        (insert_dataframe [] "weekly_stats" [⟨some 2023, some 1, 5⟩] true "REPLACE" 1).1
        "weekly_stats" [⟨some 2023, some 1, 5⟩] true "REPLACE" 2).1
      = (insert_dataframe [] "weekly_stats" [⟨some 2023, some 1, 5⟩] true "REPLACE" 2).1 :=
  C1_idempotent [] "weekly_stats" [⟨some 2023, some 1, 5⟩] true 1 2
    (by decide) (by decide) (fun _ _ => by decide)

/-- A stored row whose week matches no week present in the batch (in
particular a row with a null week) survives every `(season, week)` delete a
season-`N`-only batch issues against the week-keyed table. -/
theorem survives_of_unmatched_week (rows : List BatchRow) (N : Int) (r : Row)
    (hN : ∀ b ∈ rows, b.season = some N)
    (hwk : ∀ w : Int, r.week = some w → w ∉ weeksOf rows N) :
    survivesBatch "weekly_stats" true rows r = true := by
  unfold survivesBatch
  apply List.all_eq_true.mpr
  intro s hs
  obtain ⟨b, hb, hbs⟩ := seasonsOf_subset rows s hs
  have hsN : s = N := by
    rw [hN b hb] at hbs
    exact Option.some_inj.mp hbs.symm
  rw [hsN]
  have hss : survivesSeason "weekly_stats" true rows N r
      = survivesWeekly rows N r := by
    simp [survivesSeason]
  rw [hss]
  unfold survivesWeekly
  apply List.all_eq_true.mpr
  intro w2 hw2
  cases hrw : r.week with
  | none => simp [hrw]
  | some w =>
    have hne : ¬(w = w2) := fun he => hwk w hrw (he ▸ hw2)
    simp [hrw, hne]

/-- C2: partition isolation and frame — for a fact-table batch whose rows
all have `season = N`: (a) the stored rows whose season differs from `N`
(including rows with a null season) are exactly preserved — same rows, same
order, none deleted or modified; (b) the result consists precisely of the
stored rows surviving the batch's delete keys followed by the stamped batch
rows, so only key-matching rows are affected; (c) for the week-keyed table
(`weekly_stats` with a week column), a stored row whose week matches no
week present in the batch — including a null week — survives the clearing;
and (d) concretely, for any week `w` absent from the batch, the stored
season-`N` rows with week `w` are exactly preserved. -/
theorem C2_partition_isolation (t : List Row) (tn : String)
    (rows : List BatchRow) (hw : Bool) (now : Nat) (N : Int)
    (htn : tn ∈ factTables)
    (hN : ∀ b ∈ rows, b.season = some N) :
    ((insert_dataframe t tn rows hw "REPLACE" now).1).filter
        (fun r => !(r.season == some N))
      = t.filter (fun r => !(r.season == some N))
    ∧ (insert_dataframe t tn rows hw "REPLACE" now).1
        = t.filter (survivesBatch tn hw rows) ++ rows.map (stampRow now)
    ∧ (tn = "weekly_stats" → hw = true → ∀ r ∈ t,
        (∀ w : Int, r.week = some w → w ∉ weeksOf rows N) →
        survivesBatch tn hw rows r = true)
    ∧ (tn = "weekly_stats" → hw = true → ∀ w : Int, w ∉ weeksOf rows N →
        ((insert_dataframe t tn rows hw "REPLACE" now).1).filter
            (fun r => r.season == some N && r.week == some w)
          = t.filter (fun r => r.season == some N && r.week == some w)) := by
  have hB : (insert_dataframe t tn rows hw "REPLACE" now).1
      = t.filter (survivesBatch tn hw rows) ++ rows.map (stampRow now) := by
    rw [insert_dataframe_fact_char t tn rows hw now htn]
  refine ⟨?_, hB, ?_, ?_⟩
  · rw [hB]
    simp only [List.filter_append, List.filter_filter]
    have h1 : (rows.map (stampRow now)).filter (fun r => !(r.season == some N)) = [] := by
      rw [List.filter_eq_nil_iff]
      intro r hr
      obtain ⟨b, hb, rfl⟩ := List.mem_map.mp hr
      simp [stampRow, hN b hb]
    rw [h1, List.append_nil]
    apply List.filter_congr
    intro x _
    by_cases hx : (x.season == some N) = true
    · simp [hx]
    · have hxb : (!(x.season == some N)) = true := by simp [hx]
      rw [hxb, Bool.true_and]
      apply List.all_eq_true.mpr
      intro s hsmem
      obtain ⟨b, hb, hbs⟩ := seasonsOf_subset rows s hsmem
      have hsN : s = N := by
        have := hN b hb
        rw [this] at hbs
        exact Option.some_inj.mp hbs.symm
      subst hsN
      unfold survivesSeason
      by_cases hcase : (tn = "weekly_stats" && hw) = true
      · rw [if_pos hcase]
        apply List.all_eq_true.mpr
        intro w _
        simp only [Bool.not_eq_true] at hx ⊢
        simp [hx]
      · rw [if_neg hcase]
        simpa using hx
  · intro h1 h2 r hr hwk
    subst h1
    subst h2
    exact survives_of_unmatched_week rows N r hN hwk
  · intro h1 h2 w hwnot
    subst h1
    subst h2
    rw [hB, List.filter_append]
    have hstamp : (rows.map (stampRow now)).filter
        (fun r => r.season == some N && r.week == some w) = [] := by
      rw [List.filter_eq_nil_iff]
      intro r hr
      obtain ⟨b, hb, rfl⟩ := List.mem_map.mp hr
      intro hc
      have hc2 : b.season = some N ∧ b.week = some w := by
        simpa [stampRow] using hc
      exact hwnot (mem_weeksOf rows b N w hb (hN b hb) hc2.2)
    rw [hstamp, List.append_nil, List.filter_filter]
    apply List.filter_congr
    intro x _
    by_cases hx : (x.season == some N && x.week == some w) = true
    · rw [hx, Bool.true_and]
      have hx2 : x.season = some N ∧ x.week = some w := by simpa using hx
      apply survives_of_unmatched_week rows N x hN
      intro w0 hw0
      have hww : w0 = w := by
        rw [hx2.2] at hw0
        exact (Option.some_inj.mp hw0).symm
      rw [hww]
      exact hwnot
    · have hx2 : (x.season == some N && x.week == some w) = false := by
        cases hxx : (x.season == some N && x.week == some w) with
        | true => exact absurd hxx hx
        | false => rfl
      rw [hx2, Bool.false_and]

theorem C2_partition_isolation_witness :
    ((insert_dataframe
        [⟨some 2022, some 1, 10, 0, 0⟩, ⟨some 2023, some 1, 11, 0, 0⟩,
         ⟨some 2023, some 2, 12, 0, 0⟩, ⟨some 2023, none, 13, 0, 0⟩]
        "weekly_stats" [⟨some 2023, some 1, 99⟩] true "REPLACE" 5).1).filter
        (fun r => !(r.season == some 2023))
      = [⟨some 2022, some 1, 10, 0, 0⟩]
    ∧ ((insert_dataframe
        [⟨some 2022, some 1, 10, 0, 0⟩, ⟨some 2023, some 1, 11, 0, 0⟩,
         ⟨some 2023, some 2, 12, 0, 0⟩, ⟨some 2023, none, 13, 0, 0⟩]
        "weekly_stats" [⟨some 2023, some 1, 99⟩] true "REPLACE" 5).1).filter
        (fun r => r.season == some 2023 && r.week == some 2)
      = [⟨some 2023, some 2, 12, 0, 0⟩]
    ∧ survivesBatch "weekly_stats" true [⟨some 2023, some 1, 99⟩]
        ⟨some 2023, none, 13, 0, 0⟩ = true := by
  have h := C2_partition_isolation
    [⟨some 2022, some 1, 10, 0, 0⟩, ⟨some 2023, some 1, 11, 0, 0⟩,
     ⟨some 2023, some 2, 12, 0, 0⟩, ⟨some 2023, none, 13, 0, 0⟩]
    "weekly_stats" [⟨some 2023, some 1, 99⟩] true 5 2023
    (by decide) (by decide)
  refine ⟨h.1.trans (by decide), ?_, ?_⟩
  · exact (h.2.2.2 rfl rfl 2 (by decide)).trans (by decide)
  · exact h.2.2.1 rfl rfl ⟨some 2023, none, 13, 0, 0⟩ (by decide)
      (fun w hww => Option.noConfusion hww)

theorem insert_dataframe_no_clear (t : List Row) (tn : String)
    (rows : List BatchRow) (hw : Bool) (now : Nat)
    (h1 : tn ∉ lookupTables) (h2 : tn ∉ factTables) :
    (insert_dataframe t tn rows hw "REPLACE" now).1
      = t ++ rows.map (stampRow now) := by
  unfold insert_dataframe
  by_cases hr : rows = []
  · subst hr; simp
  · simp only [if_neg hr]
    simp [clearConflicts, if_neg h1, if_neg h2]

/-- C10: for a table outside both hard-coded name sets (e.g.
`schedules`), an insert under the `REPLACE` policy deletes nothing: the
prior rows are kept verbatim and the stamped batch rows are appended, so
ingesting the same batch twice stores it twice. -/
theorem C10_replace_appends (t : List Row) (tn : String)
    (rows : List BatchRow) (hw : Bool) (now t1 t2 : Nat)
    (h1 : tn ∉ lookupTables) (h2 : tn ∉ factTables) :
    (insert_dataframe t tn rows hw "REPLACE" now).1
        = t ++ rows.map (stampRow now)
    ∧ (insert_dataframe (insert_dataframe t tn rows hw "REPLACE" t1).1
          tn rows hw "REPLACE" t2).1
        = t ++ rows.map (stampRow t1) ++ rows.map (stampRow t2) := by
  refine ⟨insert_dataframe_no_clear t tn rows hw now h1 h2, ?_⟩
  rw [insert_dataframe_no_clear t tn rows hw t1 h1 h2]
  exact insert_dataframe_no_clear _ tn rows hw t2 h1 h2

theorem C10_replace_appends_witness :
    (insert_dataframe [⟨some 2022, none, 1, 0, 0⟩] "schedules"
        [⟨some 2023, none, 2⟩] false "REPLACE" 3).1
      = [⟨some 2022, none, 1, 0, 0⟩] ++ [BatchRow.mk (some 2023) none 2].map (stampRow 3)
    ∧ (insert_dataframe
        (insert_dataframe [⟨some 2022, none, 1, 0, 0⟩] "schedules"
          [⟨some 2023, none, 2⟩] false "REPLACE" 1).1
        "schedules" [⟨some 2023, none, 2⟩] false "REPLACE" 2).1
      = [⟨some 2022, none, 1, 0, 0⟩] ++ [BatchRow.mk (some 2023) none 2].map (stampRow 1)
          ++ [BatchRow.mk (some 2023) none 2].map (stampRow 2) :=
  C10_replace_appends [⟨some 2022, none, 1, 0, 0⟩] "schedules"
    [⟨some 2023, none, 2⟩] false 3 1 2 (by decide) (by decide)

/-! ## Boolean conversion theorems (claim C3) -/

theorem safe_bool_convert_error_mem (col : List String) (v : String)
    (hv : v ∈ col)
    (he : safe_bool_convert_value v = .error "Need to pass bool-like values") :
    ∃ e, safe_bool_convert col = .error e := by
  induction col with
  | nil => cases hv
  | cons h t ih =>
    rcases List.mem_cons.mp hv with rfl | hvt
    · exact ⟨"Need to pass bool-like values", by simp [safe_bool_convert, he]⟩
    · cases hvh : safe_bool_convert_value h with
      | error e => exact ⟨e, by simp [safe_bool_convert, hvh]⟩
      | ok b =>
        obtain ⟨e, het⟩ := ih hvt
        exact ⟨e, by simp [safe_bool_convert, hvh, het]⟩

/-- C3 (amended): the lower-cased token sets map to true/false, the
blank/"none"/"nan" tokens map to null, and ANY other value makes the
boolean conversion raise (`astype('boolean')` rejects leftover strings);
the caller's `try/except` then keeps the whole column unconverted, so an
unmapped value is never coerced to null. -/
theorem C3_bool_conversion :
    (∀ v : String, lowerString v ∈ boolTrueTokens →
        safe_bool_convert_value v = .ok (some true))
    ∧ (∀ v : String, lowerString v ∈ boolFalseTokens →
        safe_bool_convert_value v = .ok (some false))
    ∧ (∀ v : String, lowerString v ∉ boolTrueTokens → lowerString v ∉ boolFalseTokens →
        lowerString v ∈ boolNullTokens → safe_bool_convert_value v = .ok none)
    ∧ (∀ v : String, lowerString v ∉ boolTrueTokens → lowerString v ∉ boolFalseTokens →
        lowerString v ∉ boolNullTokens →
        safe_bool_convert_value v = .error "Need to pass bool-like values")
    ∧ (∀ (col : List String) (v : String), v ∈ col →
        safe_bool_convert_value v = .error "Need to pass bool-like values" →
        convertBoolColumn col = Sum.inl col) := by
  refine ⟨?_, ?_, ?_, ?_, ?_⟩
  · intro v hv; simp [safe_bool_convert_value, hv]
  · intro v h1
    have h2 : lowerString v ∉ boolTrueTokens := by
      intro hc
      simp only [boolTrueTokens, boolFalseTokens, List.mem_cons,
        List.not_mem_nil, or_false] at h1 hc
      rcases h1 with h1 | h1 | h1 | h1 <;> rw [h1] at hc <;> simp at hc
    simp [safe_bool_convert_value, h1, h2]
  · intro v h1 h2 h3; simp [safe_bool_convert_value, h1, h2, h3]
  · intro v h1 h2 h3; simp [safe_bool_convert_value, h1, h2, h3]
  · intro col v hv he
    obtain ⟨e, hcol⟩ := safe_bool_convert_error_mem col v hv he
    simp [convertBoolColumn, hcol]

theorem C3_bool_conversion_witness :
    safe_bool_convert_value "YES" = .ok (some true)
    ∧ safe_bool_convert_value "No" = .ok (some false)
    ∧ safe_bool_convert_value "" = .ok none
    ∧ convertBoolColumn ["1", "perhaps"] = Sum.inl ["1", "perhaps"] :=
  ⟨C3_bool_conversion.1 "YES" (by decide),
   C3_bool_conversion.2.1 "No" (by decide),
   C3_bool_conversion.2.2.1 "" (by decide) (by decide) (by decide),
   C3_bool_conversion.2.2.2.2 ["1", "perhaps"] "perhaps" (by decide) (by decide)⟩

/-- The claim that every unrecognized value "maps to null without raising
an error" is false: "maybe" makes the conversion raise, and the caller then
keeps the original column instead of producing nulls. -/
theorem C3_counterexample :
    safe_bool_convert_value "maybe" ≠ .ok none
    ∧ convertBoolColumn ["maybe"] = Sum.inl ["maybe"]
    ∧ convertBoolColumn ["maybe"] ≠ Sum.inr [none] := by
  refine ⟨?_, ?_, ?_⟩
  · intro h
    have : safe_bool_convert_value "maybe"
        = .error "Need to pass bool-like values" := by decide
    rw [this] at h
    cases h
  · decide
  · intro h
    have : convertBoolColumn ["maybe"] = Sum.inl ["maybe"] := by decide
    rw [this] at h
    cases h

/-! ## Format Normalizer: rank and ADP logic of `process_ecr_file`
(ecr_extractor.py lines 150-171, 231-300)

A raw spreadsheet cell is a `Cell`: `num q` is a value that `float()` /
`pd.to_numeric` parses (a number or numeric string), `txt s` is non-numeric
text on which `float()` raises, `na` is a missing value (`pd.isna`).
Player names are the strings produced by `extract_player_info` (always a
`str`, `""` for missing). -/

inductive Cell where
  | num : ℚ → Cell
  | txt : String → Cell
  | na : Cell
deriving DecidableEq, Repr

/-- Models `pd.to_numeric(·, errors='coerce')`, element-wise. -/
def toNumericCell : Cell → Option ℚ
  | .num q => some q
  | _ => none

/-- Embeds `ECRExtractor.calculate_adp_from_vs_adp` (ecr_extractor.py lines
150-171): null inputs give `None`; then `float()` is attempted, a raise
gives `None`; otherwise `ADP = rank - vs_adp`. -/
def calculate_adp_from_vs_adp : Cell → Cell → Option ℚ
  | .na, _ => none
  | _, .na => none
  | .num r, .num v => some (r - v)
  | _, _ => none

/-- The rank column of `process_ecr_file` (ecr_extractor.py lines 254-262):
with a rank column, each parsed entry is used and a parse failure defaults
to the 1-based row index; without one, ranks are `1..n`. -/
def assignRank (rankCol : Option (List Cell)) (n : Nat) : List ℚ :=
  match rankCol with
  | some col =>
    (List.range n).map (fun i =>
      match col.get? i with
      | some c =>
        match toNumericCell c with
        | some q => q
        | none => ((i + 1 : Nat) : ℚ)
      | none => ((i + 1 : Nat) : ℚ))
  | none => (List.range n).map (fun i => ((i + 1 : Nat) : ℚ))

/-- Python `str.strip()`. -/
def trimString (s : String) : String :=
  ⟨((s.data.dropWhile (fun c => c.isWhitespace)).reverse.dropWhile
      (fun c => c.isWhitespace)).reverse⟩

/-- The player-name row filter (ecr_extractor.py lines 284-290): keep rows
whose stripped name is neither empty nor the literal "nan". -/
def keepName (s : String) : Bool :=
  !(trimString s == "") && !(trimString s == "nan")

/-- The (player_name, rank) records returned for one file: ranks are
assigned on the unfiltered frame, THEN rows with unusable names are
dropped. -/
def processRecords (names : List String) (rankCol : Option (List Cell)) :
    List (String × ℚ) :=
  (names.zip (assignRank rankCol names.length)).filter (fun p => keepName p.1)

def returnedRanks (names : List String) (rankCol : Option (List Cell)) : List ℚ :=
  (processRecords names rankCol).map Prod.snd

/-- The `adp` column of `process_ecr_file` (ecr_extractor.py lines
269-282): an existing `adp` column is copied verbatim; otherwise it is
derived from `rank - vs_adp`; otherwise null. -/
def computeAdpColumn (ranks : List ℚ) (adpCol vsAdpCol : Option (List Cell)) :
    List Cell :=
  match adpCol with
  | some acol => acol
  | none =>
    match vsAdpCol with
    | some vcol =>
      (ranks.zip vcol).map (fun p =>
        match calculate_adp_from_vs_adp (Cell.num p.1) p.2 with
        | some q => Cell.num q
        | none => Cell.na)
    | none => ranks.map (fun _ => Cell.na)

/-- The `vs_adp` column of `process_ecr_file`: copied when present,
otherwise null. -/
def computeVsAdpColumn (n : Nat) (vsAdpCol : Option (List Cell)) : List Cell :=
  match vsAdpCol with
  | some vcol => vcol
  | none => List.replicate n Cell.na

theorem zip_get_some {α β : Type} :
    ∀ (l1 : List α) (l2 : List β) (i : Nat) (a : α) (b : β),
      l1.get? i = some a → l2.get? i = some b →
      (l1.zip l2).get? i = some (a, b) := by
  intro l1
  induction l1 with
  | nil => intro l2 i a b h1 _; cases h1
  | cons x xs ih =>
    intro l2 i a b h1 h2
    cases l2 with
    | nil => cases h2
    | cons y ys =>
      cases i with
      | zero =>
        simp only [List.get?_cons_zero, Option.some_inj] at h1 h2
        simp [List.zip_cons_cons, h1, h2]
      | succ j =>
        simp only [List.get?_cons_succ] at h1 h2
        simpa [List.zip_cons_cons] using ih ys j a b h1 h2

theorem pairwise_snd_zip {α : Type} :
    ∀ (names : List α) (rs : List ℚ), rs.Pairwise (· < ·) →
      (names.zip rs).Pairwise (fun a b => a.2 < b.2) := by
  intro names
  induction names with
  | nil => intro rs _; simp
  | cons x xs ih =>
    intro rs hp
    cases rs with
    | nil => simp
    | cons r rt =>
      rw [List.zip_cons_cons]
      rw [List.pairwise_cons] at hp ⊢
      refine ⟨?_, ih rt hp.2⟩
      intro p hp2
      have := (List.of_mem_zip hp2).2
      exact hp.1 p.2 this

theorem assignRank_pairwise (n : Nat) :
    (assignRank none n).Pairwise (· < ·) := by
  unfold assignRank
  apply List.pairwise_map.mpr
  apply List.Pairwise.imp ?_ (List.pairwise_lt_range n)
  intro i j h
  exact_mod_cast Nat.succ_lt_succ h

/-- C4 (amended): ranks are never null (the assigned column is total
and has one entry per input row).  Without a rank column, row `i` gets rank
`i + 1`; with a rank column, unparsable entries default to `i + 1` and
parsed entries are kept.  The ranks of the RETURNED records are strictly
increasing, and they are exactly `1..n` (gap-free) when no row is dropped
by the player-name filter — but the filter runs after rank assignment, so
a dropped row leaves a gap (see the counterexample). -/
theorem C4_rank_defaults (names : List String) (col : List Cell) (n i : Nat) :
    ((assignRank (some col) n).length = n ∧ (assignRank none n).length = n)
    ∧ (i < n → (assignRank none n).get? i = some ((i + 1 : Nat) : ℚ))
    ∧ (∀ c, i < n → col.get? i = some c → toNumericCell c = none →
        (assignRank (some col) n).get? i = some ((i + 1 : Nat) : ℚ))
    ∧ (∀ q, i < n → col.get? i = some (Cell.num q) →
        (assignRank (some col) n).get? i = some q)
    ∧ ((∀ s ∈ names, keepName s = true) →
        returnedRanks names none
          = (List.range names.length).map (fun j => ((j + 1 : Nat) : ℚ)))
    ∧ (returnedRanks names none).Pairwise (· < ·) := by
  refine ⟨⟨by simp [assignRank], by simp [assignRank]⟩, ?_, ?_, ?_, ?_, ?_⟩
  · intro h
    simp [assignRank, List.get?_eq_getElem?, List.getElem?_map, List.getElem?_range, h]
  · intro c h hc hnum
    rw [List.get?_eq_getElem?] at hc
    simp [assignRank, List.get?_eq_getElem?, List.getElem?_map, List.getElem?_range,
      h, hc, hnum]
  · intro q h hc
    rw [List.get?_eq_getElem?] at hc
    simp [assignRank, List.get?_eq_getElem?, List.getElem?_map, List.getElem?_range,
      h, hc, toNumericCell]
  · intro hall
    unfold returnedRanks processRecords
    rw [List.filter_eq_self.mpr (fun p hp => hall p.1 (List.of_mem_zip hp).1)]
    rw [List.map_snd_zip]
    · rfl
    · simp [assignRank]
  · unfold returnedRanks processRecords
    apply List.pairwise_map.mpr
    apply List.Pairwise.sublist (List.filter_sublist _)
    exact pairwise_snd_zip names _ (assignRank_pairwise names.length)

theorem C4_rank_defaults_witness :
    (assignRank none 3).get? 2 = some ((3 : Nat) : ℚ)
    ∧ (assignRank (some [Cell.num 7, Cell.txt "xx"]) 2).get? 1
        = some ((2 : Nat) : ℚ)
    ∧ (assignRank (some [Cell.num 7, Cell.txt "xx"]) 2).get? 0 = some 7
    ∧ returnedRanks ["Alice", "Bob"] none
        = (List.range 2).map (fun j => ((j + 1 : Nat) : ℚ)) :=
  ⟨(C4_rank_defaults [] [] 3 2).2.1 (by decide),
   (C4_rank_defaults [] [Cell.num 7, Cell.txt "xx"] 2 1).2.2.1
     (Cell.txt "xx") (by decide) (by decide) (by decide),
   (C4_rank_defaults [] [Cell.num 7, Cell.txt "xx"] 2 0).2.2.2.1
     7 (by decide) (by decide),
   (C4_rank_defaults ["Alice", "Bob"] [] 2 0).2.2.2.2.1 (by decide)⟩

/-- The claim that a file without a rank column yields returned ranks
"strictly increasing with no gaps" is false once the player-name filter
drops a middle row: the file `["Alice", "", "Bob"]` returns ranks
`[1, 3]` — position 1 holds rank 3, not 2. -/
theorem C4_counterexample :
    returnedRanks ["Alice", "", "Bob"] none = [((1 : Nat) : ℚ), ((3 : Nat) : ℚ)]
    ∧ ¬ (∀ i, i < (returnedRanks ["Alice", "", "Bob"] none).length →
          (returnedRanks ["Alice", "", "Bob"] none).get? i
            = some ((i + 1 : Nat) : ℚ)) := by
  decide

/-- C5 (amended): when the file has no `adp` column but has `vs_adp`,
`adp` is derived as `rank - vs_adp` exactly whenever `vs_adp` is numeric,
and is null when `vs_adp` is null or non-numeric text; when neither column
exists, `adp` is null for every row.  (When an `adp` column IS present it
is copied verbatim and the identity is not enforced — see the
counterexample.) -/
theorem C5_adp_derivation (ranks : List ℚ) (vcol : List Cell) (i : Nat) :
    (∀ r v, ranks.get? i = some r → vcol.get? i = some (Cell.num v) →
        (computeAdpColumn ranks none (some vcol)).get? i
          = some (Cell.num (r - v)))
    ∧ (∀ r, ranks.get? i = some r → vcol.get? i = some Cell.na →
        (computeAdpColumn ranks none (some vcol)).get? i = some Cell.na)
    ∧ (∀ r s, ranks.get? i = some r → vcol.get? i = some (Cell.txt s) →
        (computeAdpColumn ranks none (some vcol)).get? i = some Cell.na)
    ∧ (∀ j, j < ranks.length →
        (computeAdpColumn ranks none none).get? j = some Cell.na) := by
  refine ⟨?_, ?_, ?_, ?_⟩
  · intro r v h1 h2
    unfold computeAdpColumn
    rw [List.get?_map, zip_get_some ranks vcol i r (Cell.num v) h1 h2]
    rfl
  · intro r h1 h2
    unfold computeAdpColumn
    rw [List.get?_map, zip_get_some ranks vcol i r Cell.na h1 h2]
    rfl
  · intro r s h1 h2
    unfold computeAdpColumn
    rw [List.get?_map, zip_get_some ranks vcol i r (Cell.txt s) h1 h2]
    rfl
  · intro j hj
    unfold computeAdpColumn
    rw [List.get?_map, List.get?_eq_get hj]
    rfl

theorem C5_adp_derivation_witness :
    (computeAdpColumn [5] none (some [Cell.num 3])).get? 0
        = some (Cell.num (5 - 3))
    ∧ (computeAdpColumn [5] none (some [Cell.txt "N/A"])).get? 0 = some Cell.na
    ∧ (computeAdpColumn [(5 : ℚ)] none none).get? 0 = some Cell.na :=
  ⟨(C5_adp_derivation [5] [Cell.num 3] 0).1 5 3 rfl rfl,
   (C5_adp_derivation [5] [Cell.txt "N/A"] 0).2.2.1 5 "N/A" rfl rfl,
   (C5_adp_derivation [5] [] 0).2.2.2 0 (by decide)⟩

/-- The claim that output records satisfy `adp = rank - vs_adp` "whenever
both are present" is false when the source file carries its own `adp`
column: the column is copied verbatim, so a file row with rank 5,
adp 10, vs_adp 3 is emitted unchanged although `5 - 3 ≠ 10`. -/
theorem C5_counterexample :
    computeAdpColumn [5] (some [Cell.num 10]) (some [Cell.num 3]) = [Cell.num 10]
    ∧ computeVsAdpColumn 1 (some [Cell.num 3]) = [Cell.num 3]
    ∧ Cell.num 10 ≠ Cell.num ((5 : ℚ) - 3) := by
  refine ⟨rfl, rfl, ?_⟩
  intro h
  simp only [Cell.num.injEq] at h
  norm_num at h

/-! ## Refresh ledger (`log_refresh`, manager.py lines 342-377)

The `data_refresh_log` table is modelled by its `id` column (a `List Nat`
in insertion order); `id` is an INTEGER PRIMARY KEY, so a duplicate insert
raises a constraint error.  `log_refresh` runs
`SELECT COALESCE(MAX(id), 0) + 1`, falls back to `next_id = 1` if that
query raises, then inserts; the outer `try/except` swallows ANY failure and
returns normally.  The two store operations are passed in as oracles so
that arbitrary store faults (and stale reads by concurrent callers) can be
expressed. -/

/-- SQL `SELECT COALESCE(MAX(id), 0) + 1 FROM data_refresh_log`. -/
def nextIdQuery (entries : List Nat) : Nat := entries.foldl max 0 + 1

/-- SQL `INSERT INTO data_refresh_log (id, ...) VALUES (?, ...)` under the
PRIMARY KEY constraint on `id`. -/
def insertPK (entries : List Nat) (i : Nat) : Except String (List Nat) :=
  if i ∈ entries then .error "Constraint Error: duplicate key"
  else .ok (entries ++ [i])

/-- The inner `try/except` of `log_refresh`: a failed MAX query falls back
to `next_id = 1`. -/
def nextIdFrom (maxRes : Except String Nat) : Nat :=
  match maxRes with
  | .ok n => n
  | .error _ => 1

/-- Embeds `DatabaseManager.log_refresh`: the inner `try/except` turns a failed
MAX query into `next_id = 1`; the outer `try/except` turns a failed insert
into a no-op.  The call itself never propagates an error. -/
def log_refresh (maxRes : Except String Nat)
    (insertOp : Nat → Except String (List Nat)) (entries : List Nat) :
    Except String (List Nat) :=
  match insertOp (nextIdFrom maxRes) with
  | .ok es => .ok es
  | .error _ => .ok entries

/-- One complete, uninterleaved `log_refresh` call against state `entries`. -/
def logOnce (entries : List Nat) : List Nat :=
  match log_refresh (.ok (nextIdQuery entries)) (insertPK entries) entries with
  | .ok es => es
  | .error _ => entries

/-- Runs `n` sequential `log_refresh` calls. -/
def logSeq : Nat → List Nat → List Nat
  | 0, es => es
  | n + 1, es => logSeq n (logOnce es)

/-- The interleaving of two concurrent `log_refresh` callers sharing one
connection in which both run the MAX query before either inserts: both
compute the same id, the second insert violates the primary key, and the
error is swallowed. -/
def concurrentLogPair : List Nat :=
  let s0 : List Nat := []
  let s1 := match log_refresh (.ok (nextIdQuery s0)) (insertPK s0) s0 with
    | .ok es => es
    | .error _ => s0
  match log_refresh (.ok (nextIdQuery s0)) (insertPK s1) s1 with
  | .ok es => es
  | .error _ => s1

theorem foldl_max_init_le : ∀ (l : List Nat) (a : Nat), a ≤ l.foldl max a := by
  intro l
  induction l with
  | nil => intro a; exact le_refl a
  | cons y ys ih =>
    intro a
    exact le_trans (le_max_left a y) (ih (max a y))

theorem mem_le_foldl_max (x : Nat) : ∀ (l : List Nat) (a : Nat),
    x ∈ l → x ≤ l.foldl max a := by
  intro l
  induction l with
  | nil => intro a h; cases h
  | cons y ys ih =>
    intro a h
    rcases List.mem_cons.mp h with rfl | ht
    · exact le_trans (le_max_right a x) (foldl_max_init_le ys (max a x))
    · exact ih (max a y) ht

theorem logOnce_append (entries : List Nat) :
    logOnce entries = entries ++ [entries.foldl max 0 + 1] := by
  unfold logOnce log_refresh
  have hnm : entries.foldl max 0 + 1 ∉ entries := by
    intro hc
    have := mem_le_foldl_max _ entries 0 hc
    omega
  simp [nextIdFrom, nextIdQuery, insertPK, hnm]

theorem foldl_max_append_one (entries : List Nat) (y : Nat)
    (h : entries.foldl max 0 ≤ y) :
    (entries ++ [y]).foldl max 0 = y := by
  rw [List.foldl_append]
  simp only [List.foldl_cons, List.foldl_nil]
  omega

/-- C6 (amended, sequential part): `n` strictly sequential ledger
writes starting from any store state append exactly the ids
`m+1, m+2, ..., m+n` (where `m` is the prior maximum id): one fresh id per
call, strictly increasing, no gaps, none ever reused. -/
theorem C6_sequential_ids (entries : List Nat) (n : Nat) :
    logSeq n entries
      = entries ++ (List.range n).map (fun k => entries.foldl max 0 + k + 1) := by
  induction n generalizing entries with
  | zero => simp [logSeq]
  | succ m ih =>
    show logSeq m (logOnce entries) = _
    rw [ih (logOnce entries), logOnce_append entries]
    rw [foldl_max_append_one entries _ (by omega)]
    rw [List.append_assoc]
    congr 1
    rw [List.range_succ_eq_map]
    simp only [List.map_cons, List.map_map, List.singleton_append]
    congr 1
    apply List.map_congr_left
    intro k _
    simp only [Function.comp_apply]
    omega

/-- The concurrency part of the ledger-monotonicity claim is false: in the
interleaving modelled by `concurrentLogPair`, two `log_refresh` calls
against an empty ledger both compute id 1; the duplicate insert fails on
the primary key and is swallowed, so the two calls leave ONE entry, not
two strictly increasing ids. -/
theorem C6_counterexample :
    concurrentLogPair = [1] ∧ concurrentLogPair.length ≠ 2 := by
  decide

/-- C7: `log_refresh` never raises to its caller: whatever the store
returns for the MAX query and for the insert — success or any error — the
call completes normally (the outer `except` swallows insert failures, the
inner one replaces a failed MAX with `next_id = 1`). -/
theorem C7_log_refresh_never_throws (maxRes : Except String Nat)
    (insertOp : Nat → Except String (List Nat)) (entries : List Nat) :
    ∃ es, log_refresh maxRes insertOp entries = .ok es := by
  unfold log_refresh
  cases insertOp (nextIdFrom maxRes) with
  | ok es => exact ⟨es, rfl⟩
  | error e => exact ⟨entries, rfl⟩

/-! ## Format Normalizer batch loop (`refresh_raw_ecr`,
ecr_extractor.py lines 306-382)

Each input file is represented by the record list `process_ecr_file`
produced for it: an unparsable file, or one with no usable rows, yields
`[]` (process_ecr_file catches its own exceptions and returns an empty
frame, and the loop's `try/except` counts an exception the same way). -/

structure ECRRunResult where
  total_records : Nat
  processed_files : Nat
  failed_files : Nat
deriving DecidableEq, Repr

/-- The body of the per-file loop (ecr_extractor.py lines 341-352):
`(all_data, processed_files, failed_files)`. -/
def ecrStep {R : Type} (acc : List (List R) × Nat × Nat) (f : List R) :
    List (List R) × Nat × Nat :=
  if f.isEmpty then (acc.1, acc.2.1, acc.2.2 + 1)
  else (acc.1 ++ [f], acc.2.1 + 1, acc.2.2)

/-- Embeds `ECRExtractor.refresh_raw_ecr`: errors when no files are found or when
no file yields data; otherwise returns the per-run statistics together
with the concatenation of the successful files' records. -/
def refresh_raw_ecr {R : Type} [DecidableEq R] (files : List (List R)) :
    Except String (ECRRunResult × List R) :=
  if files = [] then .error "No ECR files found"
  else
    let st := files.foldl ecrStep ([], 0, 0)
    if st.1 = [] then .error "No data processed"
    else .ok ({ total_records := st.1.flatten.length
                processed_files := st.2.1
                failed_files := st.2.2 }, st.1.flatten)

theorem ecr_foldl_char {R : Type} :
    ∀ (files : List (List R)) (acc : List (List R) × Nat × Nat),
      files.foldl ecrStep acc
        = (acc.1 ++ files.filter (fun f => !f.isEmpty),
           acc.2.1 + files.countP (fun f => !f.isEmpty),
           acc.2.2 + files.countP (fun f => f.isEmpty)) := by
  intro files
  induction files with
  | nil => intro acc; simp
  | cons f fs ih =>
    intro acc
    simp only [List.foldl_cons, ih]
    by_cases hf : f.isEmpty
    · simp [ecrStep, hf, List.countP_cons, Prod.ext_iff]
      omega
    · simp [ecrStep, hf, List.filter_cons, List.countP_cons, Prod.ext_iff]
      omega

/-- C8: partial-failure tolerance of the Format Normalizer: provided at
least one file yields records, the run succeeds and returns exactly the
records of the non-empty files in order, with `processed_files` counting
the non-empty files and `failed_files` the empty ones (their sum is the
file count); a run in which every file fails is a hard error. -/
theorem C8_partial_failure {R : Type} [DecidableEq R] (files : List (List R))
    (hne : files ≠ []) :
    (¬ (∀ f ∈ files, f = []) →
      refresh_raw_ecr files
        = .ok ({ total_records := (files.filter (fun f => !f.isEmpty)).flatten.length
                 processed_files := files.countP (fun f => !f.isEmpty)
                 failed_files := files.countP (fun f => f.isEmpty) },
               (files.filter (fun f => !f.isEmpty)).flatten))
    ∧ ((∀ f ∈ files, f = []) →
      refresh_raw_ecr files = .error "No data processed") := by
  have hch := ecr_foldl_char files ([], 0, 0)
  constructor
  · intro hsome
    have hfil : files.filter (fun f => !f.isEmpty) ≠ [] := by
      intro hc
      apply hsome
      intro f hf
      by_cases he : f = []
      · exact he
      · exfalso
        have : f ∈ files.filter (fun f => !f.isEmpty) := by
          apply List.mem_filter.mpr
          exact ⟨hf, by simp [List.isEmpty_iff, he]⟩
        rw [hc] at this
        cases this
    unfold refresh_raw_ecr
    rw [if_neg hne, hch]
    simp only [List.nil_append, Nat.zero_add]
    rw [if_neg hfil]
  · intro hall
    have hfil : files.filter (fun f => !f.isEmpty) = [] := by
      apply List.filter_eq_nil_iff.mpr
      intro f hf
      simp [List.isEmpty_iff, hall f hf]
    unfold refresh_raw_ecr
    rw [if_neg hne, hch]
    simp only [List.nil_append]
    rw [if_pos hfil]

theorem C8_partial_failure_witness :
    refresh_raw_ecr [[1], [], [2, 3]]
        = .ok ({ total_records := 3, processed_files := 2, failed_files := 1 },
               [1, 2, 3])
    ∧ refresh_raw_ecr [([] : List Nat), []] = .error "No data processed" :=
  ⟨(C8_partial_failure [[1], [], [2, 3]] (by decide)).1 (by decide),
   (C8_partial_failure [([] : List Nat), []] (by decide)).2 (by decide)⟩

/-! ## Last-refresh lookup (`get_last_refresh`, manager.py lines 307-340) -/

structure RefreshEntry where
  table_name : String
  season : Int
  week : Option Int
  status : String
  refresh_date : Nat
deriving DecidableEq, Repr

/-- SQL `MAX` aggregate: `NULL` on an empty row set. -/
def sqlMaxAgg : List Nat → Option Nat
  | [] => none
  | x :: xs => some (xs.foldl max x)

/-- The WHERE clause built by `get_last_refresh`: the `week` condition is
appended only when the `week` argument is not `None`
(manager.py lines 321-330). -/
def refreshLogPred (t : String) (s : Int) (w : Option Int)
    (e : RefreshEntry) : Bool :=
  e.table_name == t && e.season == s && e.status == "SUCCESS" &&
    (match w with
     | none => true
     | some wv => e.week == some wv)

/-- The `SELECT MAX(refresh_date) ...` query of `get_last_refresh`. -/
def lastRefreshQuery (entries : List RefreshEntry) (t : String) (s : Int)
    (w : Option Int) : Option Nat :=
  sqlMaxAgg ((entries.filter (refreshLogPred t s w)).map
    (fun e => e.refresh_date))

/-- The surrounding `try/except` of `get_last_refresh`: a query error is
caught and `None` is returned (manager.py lines 338-340). -/
def get_last_refresh (qres : Except String (Option Nat)) : Option Nat :=
  match qres with
  | .ok r => r
  | .error _ => none

def setEntryWeek (wk : Option Int) (e : RefreshEntry) : RefreshEntry :=
  { e with week := wk }

/-- C9: with `week = None` the lookup ignores the `week` column
entirely: it is the MAX of `refresh_date` over ALL SUCCESS entries of the
given table and season — week-specific entries included (re-labelling every
entry's week, in any way, cannot change the result) — and a query error
yields `none` instead of raising. -/
theorem C9_week_none_ignores_week :
    (∀ (entries : List RefreshEntry) (t : String) (s : Int),
      lastRefreshQuery entries t s none
        = sqlMaxAgg ((entries.filter (fun e =>
            e.table_name == t && e.season == s && e.status == "SUCCESS")).map
            (fun e => e.refresh_date)))
    ∧ (∀ (entries : List RefreshEntry) (t : String) (s : Int) (wk : Option Int),
      lastRefreshQuery (entries.map (setEntryWeek wk)) t s none
        = lastRefreshQuery entries t s none)
    ∧ (∀ msg : String, get_last_refresh (.error msg) = none) := by
  refine ⟨?_, ?_, ?_⟩
  · intro entries t s
    unfold lastRefreshQuery
    congr 1
    congr 1
    apply List.filter_congr
    intro e _
    simp [refreshLogPred]
  · intro entries t s wk
    unfold lastRefreshQuery
    congr 1
    rw [List.filter_map, List.map_map]
    have hpred : (refreshLogPred t s none ∘ setEntryWeek wk)
        = refreshLogPred t s none := by
      funext e
      simp [refreshLogPred, setEntryWeek]
    rw [hpred]
    apply List.map_congr_left
    intro e _
    rfl
  · intro msg
    rfl
